import Mathlib

/-!
Shallow embedding of the ray tracer's spatial-acceleration and light-transport
core (src/vec3.rs, src/ray.rs, src/aabb.rs, src/hittable.rs, src/bvh.rs,
src/material.rs, src/renderer.rs).

Modelling conventions:
* All machine floats (`f64` and the few `f32`s) are modelled as exact
  rationals `ℚ`.  Consequences are noted where they matter: rational
  division by zero yields `0` rather than an IEEE signed infinity, so the
  AABB slab test is faithful only for rays whose direction components are
  nonzero (the spec itself singles out the zero-component case as relying
  on IEEE behaviour); concrete theorems below use rays with all direction
  components nonzero.
* Irrational-valued float operations (`sqrt`, `acos`, `atan2`, the constant
  π) have no exact rational counterpart; they are passed as an explicit
  oracle `RealFns`.  Theorems whose content depends on the value of a
  square root hypothesise the defining properties of the square root at
  the point of use.
* The random number generator is modelled as an explicit state `RNG`
  carrying a stream of doubles and, because the rejection-sampling loop of
  `random_in_unit_sphere` has no termination bound, a stream of
  already-sampled unit-ball points.
* Texture evaluation is out of scope per spec §1/§6 ("consumed as an opaque
  color function"); a `Texture` is modelled as its evaluation function.
* `slice::sort_by` (a stable sort) is modelled by `List.insertionSort`
  (also stable); the comparator in `bvh.rs` returns `Less` exactly when the
  key difference is negative, i.e. it is the strict order on keys.
  Rust leaves the order of equal-key elements produced by such an
  inconsistent comparator unspecified; every theorem below either holds
  for an arbitrary permutation or involves distinct keys.
-/

namespace RayTracer

/-- Rust `Vec3` (src/vec3.rs): three `f64` components, modelled as rationals. -/
structure Vec3 where
  x : ℚ
  y : ℚ
  z : ℚ
deriving DecidableEq, Repr

namespace Vec3

/-- Rust `Vec3::default()`: the zero vector. -/
def default : Vec3 := ⟨0, 0, 0⟩

/-- Componentwise addition (`impl Add for Vec3`). -/
instance : Add Vec3 := ⟨fun a b => ⟨a.x + b.x, a.y + b.y, a.z + b.z⟩⟩

/-- Componentwise subtraction (`impl Sub for Vec3`). -/
instance : Sub Vec3 := ⟨fun a b => ⟨a.x - b.x, a.y - b.y, a.z - b.z⟩⟩

/-- Componentwise (Hadamard) product (`impl Mul for Vec3`). -/
instance : Mul Vec3 := ⟨fun a b => ⟨a.x * b.x, a.y * b.y, a.z * b.z⟩⟩

/-- Negation (`impl Neg for Vec3`). -/
instance : Neg Vec3 := ⟨fun a => ⟨-a.x, -a.y, -a.z⟩⟩

/-- Scalar multiple (`impl Mul<Vec3> for f64`). -/
instance : HMul ℚ Vec3 Vec3 := ⟨fun k a => ⟨k * a.x, k * a.y, k * a.z⟩⟩

/-- Scalar division (`impl Div<f64> for Vec3`). -/
instance : HDiv Vec3 ℚ Vec3 := ⟨fun a k => ⟨a.x / k, a.y / k, a.z / k⟩⟩

/-- Rust `Vec3::dot`. -/
def dot (a b : Vec3) : ℚ := a.x * b.x + a.y * b.y + a.z * b.z

/-- Rust `Vec3::square_length`. -/
def squareLength (a : Vec3) : ℚ := a.x * a.x + a.y * a.y + a.z * a.z

/-- Component access (`impl Index<usize> for Vec3`), restricted to the three
valid indices used by the code. -/
def comp (a : Vec3) : Fin 3 → ℚ
  | 0 => a.x
  | 1 => a.y
  | 2 => a.z

end Vec3

/-- The oracle for irrational-valued `f64` operations (see the header). -/
structure RealFns where
  sqrt : ℚ → ℚ
  acos : ℚ → ℚ
  atan2 : ℚ → ℚ → ℚ
  pi : ℚ

/-- Rust `Vec3::unit`: `k = 1.0 / length` with `length = sqrt(square_length)`,
then componentwise scaling by `k`. -/
def Vec3.unit (rf : RealFns) (a : Vec3) : Vec3 :=
  let k := 1 / rf.sqrt a.squareLength
  ⟨a.x * k, a.y * k, a.z * k⟩

/-- Rust `Ray` (src/ray.rs). -/
structure Ray where
  origin : Vec3
  direction : Vec3
  time : ℚ
deriving DecidableEq, Repr

/-- Rust `Ray::point_at`. -/
def Ray.pointAt (r : Ray) (t : ℚ) : Vec3 := r.origin + t * r.direction

/-- Rust `AABB` (src/aabb.rs): min/max corner pair. -/
structure AABB where
  min : Vec3
  max : Vec3
deriving DecidableEq, Repr

namespace AABB

/-- One axis of the slab test in `AABB::hit`: reciprocal of the direction
component, near/far swap when the reciprocal is negative, then narrowing of
the running `[min_t, max_t]` interval. -/
def slabAxis (minC maxC oC dC tmin tmax : ℚ) : ℚ × ℚ :=
  let recip := 1 / dC
  let t0 := (minC - oC) * recip
  let t1 := (maxC - oC) * recip
  let tt := if recip < 0 then (t1, t0) else (t0, t1)
  (Max.max tt.1 tmin, Min.min tt.2 tmax)

/-- Rust `AABB::hit`: the three-axis slab test, returning `false` as soon as the
interval becomes empty (`max_t <= min_t`). -/
def hit (b : AABB) (ray : Ray) (tmin tmax : ℚ) : Bool :=
  let i0 := slabAxis b.min.x b.max.x ray.origin.x ray.direction.x tmin tmax
  if i0.2 ≤ i0.1 then false
  else
    let i1 := slabAxis b.min.y b.max.y ray.origin.y ray.direction.y i0.1 i0.2
    if i1.2 ≤ i1.1 then false
    else
      let i2 := slabAxis b.min.z b.max.z ray.origin.z ray.direction.z i1.1 i1.2
      if i2.2 ≤ i2.1 then false else true

/-- Rust `AABB::surrounding_box`: componentwise min of minimums, max of
maximums. -/
def surroundingBox (a b : AABB) : AABB :=
  { min := ⟨Min.min a.min.x b.min.x, Min.min a.min.y b.min.y,
            Min.min a.min.z b.min.z⟩
    max := ⟨Max.max a.max.x b.max.x, Max.max a.max.y b.max.y,
            Max.max a.max.z b.max.z⟩ }

/-- Containment of one box in another, componentwise (used to state C6). -/
def contains (outer inner : AABB) : Prop :=
  outer.min.x ≤ inner.min.x ∧ outer.min.y ≤ inner.min.y ∧
  outer.min.z ≤ inner.min.z ∧ inner.max.x ≤ outer.max.x ∧
  inner.max.y ≤ outer.max.y ∧ inner.max.z ≤ outer.max.z

end AABB

/-- The random generator state (see the header): a stream of `[0,1)` doubles
for `random_double` and a stream of pre-sampled unit-ball points standing
for the rejection-sampling loop of `random_in_unit_sphere`
(src/material.rs). -/
structure RNG where
  doubles : List ℚ
  spheres : List Vec3

/-- Rust `rng.random_double()`: pop one double from the stream. -/
def RNG.randomDouble (rng : RNG) : ℚ × RNG :=
  (rng.doubles.headD 0, ⟨rng.doubles.tail, rng.spheres⟩)

/-- Rust `random_in_unit_sphere` (src/material.rs): modelled as popping one
pre-sampled unit-ball point (the source's rejection loop has no
termination bound). -/
def randomInUnitSphere (rng : RNG) : Vec3 × RNG :=
  (rng.spheres.headD Vec3.default, ⟨rng.doubles, rng.spheres.tail⟩)

/-- A texture is its evaluation function `value(u, v, p) -> color`
(src/texture.rs is out of the spec's scope: "consumed as an opaque color
function"). -/
def Texture : Type := ℚ → ℚ → Vec3 → Vec3

/-- Rust `Texturable::value`. -/
def Texture.value (t : Texture) (u v : ℚ) (p : Vec3) : Vec3 := t u v p

/-- Rust `Lambertian` (src/material.rs). -/
structure Lambertian where
  albedo : Texture

/-- Rust `Metal` (src/material.rs). -/
structure Metal where
  albedo : Vec3
  fuzziness : ℚ

/-- Rust `Metal::new`: clamps fuzziness from above by `1.0` via `f64::min`. -/
def Metal.new (albedo : Vec3) (fuzziness : ℚ) : Metal :=
  ⟨albedo, Min.min fuzziness 1⟩

/-- Rust `Dielectric` (src/material.rs). -/
structure Dielectric where
  refIdx : ℚ

/-- Rust `DiffuseLight` (src/material.rs). -/
structure DiffuseLight where
  texture : Texture

/-- Rust `Material` (src/material.rs): closed tagged union. -/
inductive Material where
  | lambertian (m : Lambertian)
  | metal (m : Metal)
  | dielectric (m : Dielectric)
  | diffuseLight (m : DiffuseLight)

/-- Rust `ScatterResponse` (src/material.rs). -/
structure ScatterResponse where
  scattered : Ray
  attenuation : Vec3

/-- Rust `Hit` (src/hittable.rs).  The Rust `material` field is a reference to a
`dyn Scatterable`; every such reference in the program points at a
`Material`, which is what we store. -/
structure Hit where
  t : ℚ
  u : ℚ
  v : ℚ
  p : Vec3
  frontFacing : Bool
  normal : Vec3
  material : Material

/-- Rust `Hit::new`: computes the front-facing flag from the incoming ray and
flips the outward normal when it does not oppose the ray. -/
def Hit.new (t u v : ℚ) (p : Vec3) (ray : Ray) (outwardNormal : Vec3)
    (material : Material) : Hit :=
  let frontFacing := ray.direction.dot outwardNormal < 0
  { t, u, v, p
    frontFacing
    normal := if frontFacing then outwardNormal else -outwardNormal
    material }

/-- Rust `reflect` (src/material.rs). -/
def reflect (v n : Vec3) : Vec3 := v - (2 * v.dot n) * n

/-- Rust `refract` (src/material.rs). -/
def refract (rf : RealFns) (uv n : Vec3) (etaiOverEtat : ℚ) : Vec3 :=
  let cosTheta := Min.min ((-uv).dot n) 1
  let perpendicular := etaiOverEtat * (uv + cosTheta * n)
  let parallel := (-(rf.sqrt |1 - perpendicular.squareLength|)) * n
  perpendicular + parallel

/-- Rust `schlick` (src/material.rs). -/
def schlick (cosine refIdx : ℚ) : ℚ :=
  let r0 := (1 - refIdx) / (1 + refIdx)
  let r0 := r0 * r0
  r0 + (1 - r0) * (1 - cosine) ^ (5 : ℕ)

/-- Rust `Lambertian::scatter`: always scatters toward
`hit.p + hit.normal + random_in_unit_sphere(rng)`. -/
def Lambertian.scatter (m : Lambertian) (rng : RNG) (ray : Ray) (hit : Hit) :
    Option ScatterResponse × RNG :=
  let sr := randomInUnitSphere rng
  let target := hit.p + hit.normal + sr.1
  let scattered : Ray := ⟨hit.p, target - hit.p, ray.time⟩
  let attenuation := m.albedo.value hit.u hit.v hit.p
  (some ⟨scattered, attenuation⟩, sr.2)

/-- Rust `Metal::scatter`: fuzzed mirror reflection, absorbed (`None`) when the
result does not leave the surface. -/
def Metal.scatter (rf : RealFns) (m : Metal) (rng : RNG) (ray : Ray)
    (hit : Hit) : Option ScatterResponse × RNG :=
  let reflected := reflect (ray.direction.unit rf) hit.normal
  let sr := randomInUnitSphere rng
  let scattered : Ray := ⟨hit.p, reflected + m.fuzziness * sr.1, ray.time⟩
  if scattered.direction.dot hit.normal > 0 then
    (some ⟨scattered, m.albedo⟩, sr.2)
  else
    (none, sr.2)

/-- Rust `Dielectric::scatter`.  Note the short-circuit in the source: the random
draw happens only when refraction is geometrically possible. -/
def Dielectric.scatter (rf : RealFns) (m : Dielectric) (rng : RNG)
    (ray : Ray) (hit : Hit) : Option ScatterResponse × RNG :=
  let refractionRatio := if hit.frontFacing then 1 / m.refIdx else m.refIdx
  let unitDirection := ray.direction.unit rf
  let cosTheta := Min.min ((-unitDirection).dot hit.normal) 1
  let sinTheta := rf.sqrt (1 - cosTheta * cosTheta)
  let cannotRefract := refractionRatio * sinTheta > 1
  let dr : Vec3 × RNG :=
    if cannotRefract then (reflect unitDirection hit.normal, rng)
    else
      let rd := rng.randomDouble
      if schlick cosTheta refractionRatio > rd.1 then
        (reflect unitDirection hit.normal, rd.2)
      else
        (refract rf unitDirection hit.normal refractionRatio, rd.2)
  let refracted : Ray := ⟨hit.p, dr.1, ray.time⟩
  (some ⟨refracted, ⟨1, 1, 1⟩⟩, dr.2)

/-- Rust `Material::scatter` dispatch (`DiffuseLight::scatter` is `None` and does
not touch the generator). -/
def Material.scatter (rf : RealFns) (mat : Material) (rng : RNG) (ray : Ray)
    (hit : Hit) : Option ScatterResponse × RNG :=
  match mat with
  | .lambertian m => m.scatter rng ray hit
  | .metal m => m.scatter rf rng ray hit
  | .dielectric m => m.scatter rf rng ray hit
  | .diffuseLight _ => (none, rng)

/-- Rust `Material::emit` dispatch: the trait default (`Vec3::default()`, black)
for all variants except `DiffuseLight`, which samples its texture. -/
def Material.emit (mat : Material) (u v : ℚ) (p : Vec3) : Vec3 :=
  match mat with
  | .lambertian _ => Vec3.default
  | .metal _ => Vec3.default
  | .dielectric _ => Vec3.default
  | .diffuseLight m => m.texture.value u v p

/-- Rust `sphere_uv` (src/hittable.rs): spherical coordinates via the `acos` /
`atan2` / π oracles. -/
def sphereUV (rf : RealFns) (p : Vec3) : ℚ × ℚ :=
  let theta := rf.acos (-p.y)
  let phi := rf.atan2 (-p.z) p.x + rf.pi
  (phi / (2 * rf.pi), theta / rf.pi)

/-- Rust `Sphere` (src/hittable.rs). -/
structure Sphere where
  center : Vec3
  radius : ℚ
  material : Material

/-- Rust `impl Center for Sphere`: the center, whatever the time. -/
def Sphere.centerAt (s : Sphere) (_time : ℚ) : Vec3 := s.center

/-- The shared ray–sphere quadratic of `Sphere::hit` and
`Moving<Sphere>::hit`, given the effective center at the ray's time. -/
def sphereHitAt (rf : RealFns) (center : Vec3) (radius : ℚ)
    (material : Material) (ray : Ray) (tmin tmax : ℚ) : Option Hit :=
  let oc := ray.origin - center
  let a := ray.direction.dot ray.direction
  let b := oc.dot ray.direction
  let c := oc.dot oc - radius * radius
  let discriminant := b * b - a * c
  if discriminant < 0 then none
  else
    let discriminant := rf.sqrt discriminant
    let f := (-b - discriminant) / a
    let g := (-b + discriminant) / a
    if f < tmax ∧ f > tmin then
      let p := ray.pointAt f
      let outwardNormal := (p - center) / radius
      let uv := sphereUV rf outwardNormal
      some (Hit.new f uv.1 uv.2 p ray outwardNormal material)
    else if g < tmax ∧ g > tmin then
      let p := ray.pointAt g
      let outwardNormal := (p - center) / radius
      let uv := sphereUV rf outwardNormal
      some (Hit.new g uv.1 uv.2 p ray outwardNormal material)
    else none

/-- Rust `Sphere::hit`. -/
def Sphere.hit (rf : RealFns) (s : Sphere) (ray : Ray) (tmin tmax : ℚ) :
    Option Hit :=
  sphereHitAt rf s.center s.radius s.material ray tmin tmax

/-- Rust `Sphere::bounding_box`: center ± (radius, radius, radius). -/
def Sphere.boundingBox (s : Sphere) (_t0 _t1 : ℚ) : Option AABB :=
  some ⟨s.center - ⟨s.radius, s.radius, s.radius⟩,
        s.center + ⟨s.radius, s.radius, s.radius⟩⟩

/-- Rust `XyRect` (src/hittable.rs). -/
structure XyRect where
  x0 : ℚ
  x1 : ℚ
  y0 : ℚ
  y1 : ℚ
  k : ℚ
  material : Material

/-- Rust `XyRect::hit`. -/
def XyRect.hit (r : XyRect) (ray : Ray) (tmin tmax : ℚ) : Option Hit :=
  let t := (r.k - ray.origin.z) / ray.direction.z
  if t < tmin ∨ t > tmax then none
  else
    let x := ray.origin.x + t * ray.direction.x
    let y := ray.origin.y + t * ray.direction.y
    if x < r.x0 ∨ x > r.x1 ∨ y < r.y0 ∨ y > r.y1 then none
    else
      let u := (x - r.x0) / (r.x1 - r.x0)
      let v := (y - r.y0) / (r.y1 - r.y0)
      some (Hit.new t u v (ray.pointAt t) ray ⟨0, 0, 1⟩ r.material)

/-- Rust `XyRect::bounding_box`: padded by `0.0001` along z. -/
def XyRect.boundingBox (r : XyRect) (_t0 _t1 : ℚ) : Option AABB :=
  some ⟨⟨r.x0, r.y0, r.k - 1/10000⟩, ⟨r.x1, r.y1, r.k + 1/10000⟩⟩

/-- Rust `XzRect` (src/hittable.rs). -/
structure XzRect where
  x0 : ℚ
  x1 : ℚ
  z0 : ℚ
  z1 : ℚ
  k : ℚ
  material : Material

/-- Rust `XzRect::hit`. -/
def XzRect.hit (r : XzRect) (ray : Ray) (tmin tmax : ℚ) : Option Hit :=
  let t := (r.k - ray.origin.y) / ray.direction.y
  if t < tmin ∨ t > tmax then none
  else
    let x := ray.origin.x + t * ray.direction.x
    let z := ray.origin.z + t * ray.direction.z
    if x < r.x0 ∨ x > r.x1 ∨ z < r.z0 ∨ z > r.z1 then none
    else
      let u := (x - r.x0) / (r.x1 - r.x0)
      let v := (z - r.z0) / (r.z1 - r.z0)
      some (Hit.new t u v (ray.pointAt t) ray ⟨0, 1, 0⟩ r.material)

/-- Rust `XzRect::bounding_box`: padded by `0.0001` along y. -/
def XzRect.boundingBox (r : XzRect) (_t0 _t1 : ℚ) : Option AABB :=
  some ⟨⟨r.x0, r.k - 1/10000, r.z0⟩, ⟨r.x1, r.k + 1/10000, r.z1⟩⟩

/-- Rust `YzRect` (src/hittable.rs). -/
structure YzRect where
  y0 : ℚ
  y1 : ℚ
  z0 : ℚ
  z1 : ℚ
  k : ℚ
  material : Material

/-- Rust `YzRect::hit`. -/
def YzRect.hit (r : YzRect) (ray : Ray) (tmin tmax : ℚ) : Option Hit :=
  let t := (r.k - ray.origin.x) / ray.direction.x
  if t < tmin ∨ t > tmax then none
  else
    let y := ray.origin.y + t * ray.direction.y
    let z := ray.origin.z + t * ray.direction.z
    if y < r.y0 ∨ y > r.y1 ∨ z < r.z0 ∨ z > r.z1 then none
    else
      let u := (y - r.y0) / (r.y1 - r.y0)
      let v := (z - r.z0) / (r.z1 - r.z0)
      some (Hit.new t u v (ray.pointAt t) ray ⟨1, 0, 0⟩ r.material)

/-- Rust `YzRect::bounding_box`: padded by `0.0001` along x. -/
def YzRect.boundingBox (r : YzRect) (_t0 _t1 : ℚ) : Option AABB :=
  some ⟨⟨r.k - 1/10000, r.y0, r.z0⟩, ⟨r.k + 1/10000, r.y1, r.z1⟩⟩

/-- Rust `Rect` (src/hittable.rs): the three axis-aligned orientations. -/
inductive Rect where
  | xy (r : XyRect)
  | xz (r : XzRect)
  | yz (r : YzRect)

/-- Rust `impl Hittable for Rect`: dispatch. -/
def Rect.hit (r : Rect) (ray : Ray) (tmin tmax : ℚ) : Option Hit :=
  match r with
  | .xy r => r.hit ray tmin tmax
  | .xz r => r.hit ray tmin tmax
  | .yz r => r.hit ray tmin tmax

/-- Rust `Rect::bounding_box` dispatch. -/
def Rect.boundingBox (r : Rect) (t0 t1 : ℚ) : Option AABB :=
  match r with
  | .xy r => r.boundingBox t0 t1
  | .xz r => r.boundingBox t0 t1
  | .yz r => r.boundingBox t0 t1

/-- Rust `Cube` (src/hittable.rs): min/max corners and the fixed-size array
`sides: [Rect; 6]`, modelled as six fields. -/
structure Cube where
  min : Vec3
  max : Vec3
  side0 : Rect
  side1 : Rect
  side2 : Rect
  side3 : Rect
  side4 : Rect
  side5 : Rect

/-- The `sides` array of a cube, in source order. -/
def Cube.sides (c : Cube) : List Rect :=
  [c.side0, c.side1, c.side2, c.side3, c.side4, c.side5]

/-- Rust `Cube::new`: six axis-aligned rectangles in the source's order. -/
def Cube.new (p0 p1 : Vec3) (material : Material) : Cube :=
  { min := p0
    max := p1
    side0 := .xy ⟨p0.x, p1.x, p0.y, p1.y, p0.z, material⟩
    side1 := .xy ⟨p0.x, p1.x, p0.y, p1.y, p1.z, material⟩
    side2 := .xz ⟨p0.x, p1.x, p0.z, p1.z, p1.y, material⟩
    side3 := .xz ⟨p0.x, p1.x, p0.z, p1.z, p0.y, material⟩
    side4 := .yz ⟨p0.y, p1.y, p0.z, p1.z, p1.x, material⟩
    side5 := .yz ⟨p0.y, p1.y, p0.z, p1.z, p0.x, material⟩ }

/-- The nearest-hit fold shared by `Cube::hit` and the free `hit` over shape
slices: each accepted hit narrows `min_distance`. -/
def nearestHitFold (hits : List (ℚ → Option Hit)) (tmax : ℚ) : Option Hit :=
  (hits.foldl
    (fun acc h =>
      match h acc.1 with
      | some ht => (ht.t, some ht)
      | none => acc)
    (tmax, none)).2

/-- Rust `Cube::hit`: nearest hit among the six faces. -/
def Cube.hit (c : Cube) (ray : Ray) (tmin tmax : ℚ) : Option Hit :=
  nearestHitFold (c.sides.map (fun s md => s.hit ray tmin md)) tmax

/-- Rust `Cube::bounding_box`: the running union over the six faces' boxes
(`None` the moment a face has no box — which never happens). -/
def Cube.boundingBox (c : Cube) (t0 t1 : ℚ) : Option AABB :=
  match c.sides with
  | [] => none
  | s :: rest =>
    rest.foldl
      (fun acc sh => acc.bind fun a => (sh.boundingBox t0 t1).map
        fun b => a.surroundingBox b)
      (s.boundingBox t0 t1)

/-- Rust `Moving<Sphere>` (src/hittable.rs). -/
structure Moving where
  object : Sphere
  centerFinal : Vec3
  timeStart : ℚ
  timeEnd : ℚ

/-- Rust `impl Center for Moving<T>`: linear interpolation from the object's
center at time 0 toward `center_final` — and linear extrapolation for times
outside `[time_start, time_end]`. -/
def Moving.center (m : Moving) (time : ℚ) : Vec3 :=
  let centerInitial := m.object.centerAt 0
  let elapsedTime := time - m.timeStart
  let movementTime := m.timeEnd - m.timeStart
  let distance := m.centerFinal - centerInitial
  centerInitial + (elapsedTime / movementTime) * distance

/-- Rust `Moving<Sphere>::hit`: the sphere quadratic against the interpolated
center at the ray's own time. -/
def Moving.hit (rf : RealFns) (m : Moving) (ray : Ray) (tmin tmax : ℚ) :
    Option Hit :=
  sphereHitAt rf (m.center ray.time) m.object.radius m.object.material
    ray tmin tmax

/-- Rust `Moving<Sphere>::bounding_box`: the box at each time endpoint, united
when the endpoints differ. -/
def Moving.boundingBox (m : Moving) (t0 t1 : ℚ) : Option AABB :=
  let f := fun (center : Vec3) =>
    let radius := m.object.radius
    AABB.mk (center - ⟨radius, radius, radius⟩)
      (center + ⟨radius, radius, radius⟩)
  let centerInitial := m.center t0
  let centerFinal := m.center t1
  if centerInitial = centerFinal then some (f centerInitial)
  else some ((f centerInitial).surroundingBox (f centerFinal))

/-- Rust `Shape` (src/hittable.rs): closed tagged union. -/
inductive Shape where
  | sphere (s : Sphere)
  | xyRect (r : XyRect)
  | xzRect (r : XzRect)
  | yzRect (r : YzRect)
  | cube (c : Cube)
  | movingSphere (m : Moving)

/-- Rust `impl Hittable for Shape`: dispatch. -/
def Shape.hit (rf : RealFns) (s : Shape) (ray : Ray) (tmin tmax : ℚ) :
    Option Hit :=
  match s with
  | .sphere s => s.hit rf ray tmin tmax
  | .xyRect r => r.hit ray tmin tmax
  | .xzRect r => r.hit ray tmin tmax
  | .yzRect r => r.hit ray tmin tmax
  | .cube c => c.hit ray tmin tmax
  | .movingSphere m => m.hit rf ray tmin tmax

/-- Rust `Shape::bounding_box` dispatch. -/
def Shape.boundingBox (s : Shape) (t0 t1 : ℚ) : Option AABB :=
  match s with
  | .sphere s => s.boundingBox t0 t1
  | .xyRect r => r.boundingBox t0 t1
  | .xzRect r => r.boundingBox t0 t1
  | .yzRect r => r.boundingBox t0 t1
  | .cube c => c.boundingBox t0 t1
  | .movingSphere m => m.boundingBox t0 t1

/-- The free `hit` function over shape slices (src/hittable.rs:698): the
brute-force nearest-hit linear scan. -/
def hit (rf : RealFns) (shapes : List Shape) (ray : Ray) (tmin tmax : ℚ) :
    Option Hit :=
  nearestHitFold (shapes.map (fun s md => s.hit rf ray tmin md)) tmax

/-- The free `bounding_box` function over shape slices
(src/hittable.rs:712): the running union, `None` if any shape is
unboundable. -/
def boundingBox (shapes : List Shape) (t0 t1 : ℚ) : Option AABB :=
  match shapes with
  | [] => none
  | s :: rest =>
    rest.foldl
      (fun acc sh => acc.bind fun a => (sh.boundingBox t0 t1).map
        fun b => a.surroundingBox b)
      (s.boundingBox t0 t1)

/-- Rust `BVHMember` (src/bvh.rs): a leaf holding an index into the shape list,
or an internal node with bounds and two optional children. -/
inductive BVHMember where
  | node (bounds : AABB) (left : Option BVHMember) (right : Option BVHMember)
  | leaf (index : ℕ)

/-- The generator used during BVH construction: `(3.0 * random_double()) as
usize` with `random_double ∈ [0,1)` is exactly a member of `{0,1,2}`, so the
build's randomness is modelled as the resulting stream of axis picks. -/
structure BuildRng where
  axes : List (Fin 3)

/-- Pop the next axis pick. -/
def BuildRng.next (r : BuildRng) : Fin 3 × BuildRng :=
  (r.axes.headD 0, ⟨r.axes.tail⟩)

/-- The sort key of the comparator in `BVHMember::build_tree`: the chosen
axis' coordinate of the shape's bounding-box minimum.  The source's
`.expect("should exist")` is modelled by `getD`; the theorem for C9 shows
every shape is boundable, so the default is never taken. -/
def sortKey (t0 t1 : ℚ) (axis : Fin 3) (s : Shape) : ℚ :=
  ((s.boundingBox t0 t1).getD ⟨Vec3.default, Vec3.default⟩).min.comp axis

/-- The bounding box a build-time `.expect(..)` unwraps (same `getD`
modelling as `sortKey`). -/
def expectBox (s : Shape) (t0 t1 : ℚ) : AABB :=
  (s.boundingBox t0 t1).getD ⟨Vec3.default, Vec3.default⟩

/-- Rust `BVHMember::build_tree` (src/bvh.rs): draw an axis, stably sort the
current range by bounding-box minimum on that axis (the comparator returns
`Less` exactly when the key difference is negative), then: size 1 → leaf;
size 2 → a node over two leaves (note the source stores the *second* sorted
shape's leaf in `left` and the first in `right`); otherwise split at the
half count, recurse, and take the union of the whole (now recursively
sorted) range's boxes as bounds.  Returns the tree, the final contents of
the mutated slice, and the advanced generator.  The source recurses forever
on an empty range; that branch is modelled as a junk leaf and is
unreachable from nonempty scenes. -/
def BVHMember.buildTreeFuel :
    ℕ → BuildRng → List Shape → ℕ → ℚ → ℚ →
      BVHMember × List Shape × BuildRng
  | 0, rng, shapes, offset, _, _ => (.leaf offset, shapes, rng)
  | fuel + 1, rng, shapes, offset, t0, t1 =>
    let an := rng.next
    let sorted := List.insertionSort
      (fun a b => sortKey t0 t1 an.1 a < sortKey t0 t1 an.1 b) shapes
    if shapes.length = 1 then (.leaf offset, sorted, an.2)
    else if shapes.length = 2 then
      match sorted with
      | a :: b :: _ =>
        let bounds := (expectBox a t0 t1).surroundingBox (expectBox b t0 t1)
        (.node bounds (some (.leaf (offset + 1))) (some (.leaf offset)),
          sorted, an.2)
      | _ => (.leaf offset, sorted, an.2)
    else if shapes.length = 0 then (.leaf offset, sorted, an.2)
    else
      let halvingPoint := shapes.length / 2
      let lt := BVHMember.buildTreeFuel fuel an.2 (sorted.take halvingPoint)
        offset t0 t1
      let rt := BVHMember.buildTreeFuel fuel lt.2.2
        (sorted.drop halvingPoint) (offset + halvingPoint) t0 t1
      let finalShapes := lt.2.1 ++ rt.2.1
      let bounds :=
        (boundingBox finalShapes t0 t1).getD ⟨Vec3.default, Vec3.default⟩
      (.node bounds (some lt.1) (some rt.1), finalShapes, rt.2.2)

/-- Rust `BVHMember::build_tree` proper: the recursion terminates because each
recursive call strictly shrinks the range, so `shapes.length` steps of fuel
always suffice (the leaf invariants below are proved for any fuel of at
least the slice length); the fuel-exhausted branch is unreachable. -/
def BVHMember.buildTree (rng : BuildRng) (shapes : List Shape) (offset : ℕ)
    (t0 t1 : ℚ) : BVHMember × List Shape × BuildRng :=
  BVHMember.buildTreeFuel shapes.length rng shapes offset t0 t1

/-- Rust `BVHMember::indexed_hit` (src/bvh.rs): leaves delegate to the indexed
shape (an out-of-range index would panic in Rust and is modelled as no
hit); nodes first reject via the slab test, then query both children and
keep the hit with smaller `t` (ties go to the right child). -/
def BVHMember.indexedHit (rf : RealFns) (shapes : List Shape)
    (m : BVHMember) (ray : Ray) (tmin tmax : ℚ) : Option Hit :=
  match m with
  | .leaf index =>
    match shapes[index]? with
    | some s => s.hit rf ray tmin tmax
    | none => none
  | .node bounds left right =>
    if ¬ bounds.hit ray tmin tmax then none
    else
      let leftHit :=
        match left with
        | some it => it.indexedHit rf shapes ray tmin tmax
        | none => none
      let rightHit :=
        match right with
        | some it => it.indexedHit rf shapes ray tmin tmax
        | none => none
      match leftHit, rightHit with
      | some lh, some rh => if lh.t < rh.t then some lh else some rh
      | some lh, none => some lh
      | none, some rh => some rh
      | none, none => none

/-- Rust `BoundingVolumeHierarchy` (src/bvh.rs): the (reordered) shape list and
the root member. -/
structure BoundingVolumeHierarchy where
  shapes : List Shape
  root : BVHMember

/-- Rust `BoundingVolumeHierarchy::new`: build from the scene, keeping the
mutated (sorted) shape list. -/
def BoundingVolumeHierarchy.new (rng : BuildRng) (shapes : List Shape)
    (timeInitial timeFinal : ℚ) : BoundingVolumeHierarchy :=
  let r := BVHMember.buildTree rng shapes 0 timeInitial timeFinal
  ⟨r.2.1, r.1⟩

/-- Rust `impl Hittable for BoundingVolumeHierarchy`. -/
def BoundingVolumeHierarchy.hit (rf : RealFns)
    (b : BoundingVolumeHierarchy) (ray : Ray) (tmin tmax : ℚ) :
    Option Hit :=
  b.root.indexedHit rf b.shapes ray tmin tmax

/-- The leaf indices of a BVH member, in traversal (left-to-right) order. -/
def BVHMember.leafList : BVHMember → List ℕ
  | .leaf i => [i]
  | .node _ left right =>
    (match left with
     | some c => c.leafList
     | none => []) ++
    (match right with
     | some c => c.leafList
     | none => [])

/-- Whether every internal node has exactly two children. -/
def BVHMember.strictBinary : BVHMember → Bool
  | .leaf _ => true
  | .node _ left right =>
    match left, right with
    | some a, some b => a.strictBinary && b.strictBinary
    | _, _ => false

/-- Rust `color` (src/renderer.rs): the recursive radiance estimator.  `world`
stands for the partially applied nearest-hit query
`world.hit(ray, 0.001, f64::INFINITY)` — the fixed bounds are folded into
the function because ℚ has no infinity; the `u8` depth is modelled as ℕ. -/
def color (rf : RealFns) (rng : RNG) (ray : Ray) (background : Vec3)
    (world : Ray → Option Hit) : ℕ → Vec3
  | 0 => ⟨0, 0, 0⟩
  | d + 1 =>
    match world ray with
    | some h =>
      let emitted := h.material.emit h.u h.v h.p
      let sc := h.material.scatter rf rng ray h
      match sc.1 with
      | some scatter =>
        (emitted + scatter.attenuation) *
          color rf sc.2 scatter.scattered background world d
      | none => emitted
    | none => background

/-! ### Concrete fixtures used by witnesses and counterexamples -/

/-- A function-free material (so fixtures are plain first-order data). -/
def mat0 : Material := .dielectric ⟨3/2⟩

/-- A sphere of radius 1 moving from the origin at time 0 to `(100,0,0)` at
time 1. -/
def cexMovingShape : Shape := .movingSphere
  { object := { center := ⟨0, 0, 0⟩, radius := 1, material := mat0 }
    centerFinal := ⟨100, 0, 0⟩
    timeStart := 0
    timeEnd := 1 }

/-- A static unit sphere far off at `(0,50,0)`. -/
def cexStaticShape : Shape :=
  .sphere { center := ⟨0, 50, 0⟩, radius := 1, material := mat0 }

/-- The two-shape scene of the BVH/scan divergence. -/
def cexScene : List Shape := [cexMovingShape, cexStaticShape]

/-- A ray whose time sample 10 lies outside the build interval `[0,1]`,
aimed at the moving sphere's extrapolated center `(1000,0,0)`; all
direction components are nonzero so the rational slab test is faithful. -/
def cexRay : Ray := { origin := ⟨990, -5, -10⟩, direction := ⟨2, 1, 2⟩, time := 10 }

/-- An oracle that is exact on the only square root the divergence scenario
queries (`√9 = 3`). -/
def cexRealFns : RealFns :=
  ⟨fun q => if q = 9 then 3 else 0, fun _ => 0, fun _ _ => 0, 0⟩

/-- The BVH built over `cexScene` for the shutter interval `[0,1]` (the
build draws the y axis for every node). -/
def cexBvh : BoundingVolumeHierarchy := .new ⟨[1, 1, 1]⟩ cexScene 0 1

/-- A three-sphere scene exercising the BVH builder. -/
def scene3 : List Shape :=
  [.sphere { center := ⟨0, 0, 0⟩, radius := 1, material := mat0 },
   .sphere { center := ⟨4, 0, 0⟩, radius := 1, material := mat0 },
   .sphere { center := ⟨8, 0, 0⟩, radius := 1, material := mat0 }]

/-- An oracle exact at `√1 = 1` (used by the sphere-hit witness). -/
def sqrtOne : RealFns := ⟨fun _ => 1, fun _ => 0, fun _ _ => 0, 0⟩

/-- A ray from the center of `witSphere` (so the origin is inside), headed
in the `-z` direction. -/
def witRay : Ray := { origin := ⟨0, 0, 0⟩, direction := ⟨0, 0, -1⟩, time := 0 }

/-- The unit sphere at the origin. -/
def witSphere : Sphere := { center := ⟨0, 0, 0⟩, radius := 1, material := mat0 }

/-- A hit fixture for integrator witnesses: a Lambertian surface at
`(0,0,-1)` facing `+z`. -/
def witLambHit : Hit :=
  { t := 1, u := 0, v := 0, p := ⟨0, 0, -1⟩, frontFacing := true
    normal := ⟨0, 0, 1⟩
    material := .lambertian ⟨fun _ _ _ => ⟨1/2, 1/2, 1/2⟩⟩ }

/-- A hit fixture whose material never scatters (a diffuse light emitting
constant white). -/
def witLightHit : Hit :=
  { t := 1, u := 0, v := 0, p := ⟨0, 0, -1⟩, frontFacing := true
    normal := ⟨0, 0, 1⟩
    material := .diffuseLight ⟨fun _ _ _ => ⟨1, 1, 1⟩⟩ }

/-- An RNG fixture with empty streams (all draws return the defaults). -/
def rng0 : RNG := ⟨[], []⟩

/-- The scatter response `witLambHit`'s Lambertian produces from `rng0`:
target `p + normal + 0`, i.e. a scattered ray from `(0,0,-1)` toward
`(0,0,1)` with attenuation `(1/2,1/2,1/2)`. -/
def witResp : ScatterResponse :=
  ⟨⟨⟨0, 0, -1⟩, ⟨0, 0, 1⟩, 0⟩, ⟨1/2, 1/2, 1/2⟩⟩


/-- The quadratic coefficient `a` of `Sphere::hit`. -/
def sphereA (ray : Ray) : ℚ := ray.direction.dot ray.direction

/-- The half-linear coefficient `b` of `Sphere::hit`. -/
def sphereB (center : Vec3) (ray : Ray) : ℚ :=
  (ray.origin - center).dot ray.direction

/-- The constant coefficient `c` of `Sphere::hit`. -/
def sphereCc (center : Vec3) (radius : ℚ) (ray : Ray) : ℚ :=
  (ray.origin - center).dot (ray.origin - center) - radius * radius

/-- The discriminant `b*b - a*c` of `Sphere::hit`. -/
def sphereDisc (center : Vec3) (radius : ℚ) (ray : Ray) : ℚ :=
  sphereB center ray * sphereB center ray -
    sphereA ray * sphereCc center radius ray

/-- The smaller quadratic root `f = (-b - sqrt(disc)) / a` (smaller
whenever `a > 0` and the square root is nonnegative). -/
def sphereRootF (rf : RealFns) (center : Vec3) (radius : ℚ) (ray : Ray) : ℚ :=
  (-sphereB center ray - rf.sqrt (sphereDisc center radius ray)) / sphereA ray

/-- The larger quadratic root `g = (-b + sqrt(disc)) / a`. -/
def sphereRootG (rf : RealFns) (center : Vec3) (radius : ℚ) (ray : Ray) : ℚ :=
  (-sphereB center ray + rf.sqrt (sphereDisc center radius ray)) / sphereA ray

/-! ## Theorems -/

/-- Unfolding lemma for vector addition. -/
@[simp] theorem Vec3.add_def (a b : Vec3) :
    a + b = Vec3.mk (a.x + b.x) (a.y + b.y) (a.z + b.z) := rfl

/-- Unfolding lemma for vector subtraction. -/
@[simp] theorem Vec3.sub_def (a b : Vec3) :
    a - b = Vec3.mk (a.x - b.x) (a.y - b.y) (a.z - b.z) := rfl

/-- Unfolding lemma for the Hadamard product. -/
@[simp] theorem Vec3.mul_def (a b : Vec3) :
    a * b = Vec3.mk (a.x * b.x) (a.y * b.y) (a.z * b.z) := rfl

/-- Unfolding lemma for vector negation. -/
@[simp] theorem Vec3.neg_def (a : Vec3) :
    -a = Vec3.mk (-a.x) (-a.y) (-a.z) := rfl

/-- Unfolding lemma for scalar multiplication. -/
@[simp] theorem Vec3.smul_def (k : ℚ) (a : Vec3) :
    k * a = Vec3.mk (k * a.x) (k * a.y) (k * a.z) := rfl

/-- Unfolding lemma for scalar division. -/
@[simp] theorem Vec3.sdiv_def (a : Vec3) (k : ℚ) :
    a / k = Vec3.mk (a.x / k) (a.y / k) (a.z / k) := rfl

/-- C5: the integrator at `max_depth = 0` is black for every generator,
ray, background and world — in particular independently of any
intersection query. -/
theorem color_depth_zero (rf : RealFns) (rng : RNG) (ray : Ray)
    (background : Vec3) (world : Ray → Option Hit) :
    color rf rng ray background world 0 = ⟨0, 0, 0⟩ := rfl

/-- C6: `surrounding_box` contains both arguments (its min is ≤ each
input's min and its max ≥ each input's max, componentwise) and is
commutative. -/
theorem surroundingBox_contains_comm (a b : AABB) :
    AABB.contains (a.surroundingBox b) a ∧
    AABB.contains (a.surroundingBox b) b ∧
    a.surroundingBox b = b.surroundingBox a := by
  refine ⟨⟨?_, ?_, ?_, ?_, ?_, ?_⟩, ⟨?_, ?_, ?_, ?_, ?_, ?_⟩, ?_⟩ <;>
    simp [AABB.surroundingBox, AABB.contains, min_le_left, min_le_right,
      le_max_left, le_max_right]
  exact ⟨⟨min_comm _ _, min_comm _ _, min_comm _ _⟩,
    max_comm _ _, max_comm _ _, max_comm _ _⟩

/-- C7: the normal stored by `Hit::new` always opposes the incoming ray
(`dot ≤ 0`); it is the outward normal exactly when that normal already
opposed the ray (`dot < 0`), its negation otherwise; and the front-facing
flag records which case occurred. -/
theorem hit_new_normal_opposes (t u v : ℚ) (p : Vec3) (ray : Ray)
    (outwardNormal : Vec3) (material : Material) :
    ray.direction.dot (Hit.new t u v p ray outwardNormal material).normal ≤ 0 ∧
    (ray.direction.dot outwardNormal < 0 →
      (Hit.new t u v p ray outwardNormal material).normal = outwardNormal) ∧
    (¬ ray.direction.dot outwardNormal < 0 →
      (Hit.new t u v p ray outwardNormal material).normal = -outwardNormal) ∧
    ((Hit.new t u v p ray outwardNormal material).frontFacing = true ↔
      ray.direction.dot outwardNormal < 0) := by
  have hnorm : (Hit.new t u v p ray outwardNormal material).normal =
      if ray.direction.dot outwardNormal < 0 then outwardNormal
      else -outwardNormal := by
    simp [Hit.new]
  have hff : (Hit.new t u v p ray outwardNormal material).frontFacing =
      decide (ray.direction.dot outwardNormal < 0) := rfl
  have hdotneg : ray.direction.dot (-outwardNormal) =
      -(ray.direction.dot outwardNormal) := by
    simp [Vec3.dot]
    ring
  by_cases h : ray.direction.dot outwardNormal < 0
  · rw [hnorm, if_pos h]
    exact ⟨le_of_lt h, fun _ => rfl, fun hn => absurd h hn,
      by simp [hff, h]⟩
  · rw [hnorm, if_neg h]
    refine ⟨?_, fun hc => absurd hc h, fun _ => rfl, by simp [hff, h]⟩
    rw [hdotneg]
    linarith [not_lt.mp h]

/-- Witness for C7 at a concrete incoming ray and outward normal (the
non-opposing case, where the normal gets flipped). -/
theorem hit_new_normal_opposes_witness :
    witRay.direction.dot
      (Hit.new 1 0 0 ⟨0, 0, -1⟩ witRay ⟨0, 0, -1⟩ mat0).normal ≤ 0 ∧
    (Hit.new 1 0 0 ⟨0, 0, -1⟩ witRay ⟨0, 0, -1⟩ mat0).normal =
      -(⟨0, 0, -1⟩ : Vec3) :=
  ⟨(hit_new_normal_opposes 1 0 0 ⟨0, 0, -1⟩ witRay ⟨0, 0, -1⟩ mat0).1,
   (hit_new_normal_opposes 1 0 0 ⟨0, 0, -1⟩ witRay ⟨0, 0, -1⟩ mat0).2.2.1
     (by norm_num [Vec3.dot, witRay])⟩

/-- C8: a `Metal` with `fuzz = 0` scatters deterministically — the returned
response (in particular the outgoing direction) does not depend on the
generator state. -/
theorem metal_fuzz_zero_deterministic (rf : RealFns) (albedo : Vec3)
    (rng1 rng2 : RNG) (ray : Ray) (h : Hit) :
    (Material.scatter rf (.metal ⟨albedo, 0⟩) rng1 ray h).1 =
    (Material.scatter rf (.metal ⟨albedo, 0⟩) rng2 ray h).1 := by
  simp [Material.scatter, Metal.scatter]
  rw [apply_ite Prod.fst, apply_ite Prod.fst]

/-- C10: `Metal::new` stores `min(fuzziness, 1)`: the stored fuzz never
exceeds 1, and a negative input is stored unchanged (no lower clamp). -/
theorem metal_new_fuzziness_clamp (albedo : Vec3) (fuzziness : ℚ) :
    (Metal.new albedo fuzziness).fuzziness = Min.min fuzziness 1 ∧
    (Metal.new albedo fuzziness).fuzziness ≤ 1 ∧
    (fuzziness < 0 → (Metal.new albedo fuzziness).fuzziness = fuzziness) := by
  refine ⟨rfl, min_le_right _ _, fun h => ?_⟩
  simp [Metal.new]
  linarith

/-- Witness for C10 at `fuzziness = -1`: stored unchanged. -/
theorem metal_new_fuzziness_clamp_witness :
    (Metal.new ⟨0, 0, 0⟩ (-1)).fuzziness = Min.min (-1) 1 ∧
    (Metal.new ⟨0, 0, 0⟩ (-1)).fuzziness ≤ 1 ∧
    (Metal.new ⟨0, 0, 0⟩ (-1)).fuzziness = -1 :=
  ⟨(metal_new_fuzziness_clamp ⟨0, 0, 0⟩ (-1)).1,
   (metal_new_fuzziness_clamp ⟨0, 0, 0⟩ (-1)).2.1,
   (metal_new_fuzziness_clamp ⟨0, 0, 0⟩ (-1)).2.2 (by norm_num)⟩

/-- Every material whose `scatter` can return a response has the default
(black) emission: the only emitting material, `DiffuseLight`, never
scatters. -/
theorem scatter_some_emit_default (rf : RealFns) (mat : Material)
    (rng : RNG) (ray : Ray) (h : Hit) (resp : ScatterResponse) (rng2 : RNG)
    (hs : Material.scatter rf mat rng ray h = (some resp, rng2))
    (u v : ℚ) (p : Vec3) :
    Material.emit mat u v p = Vec3.default := by
  cases mat with
  | lambertian m => rfl
  | metal m => rfl
  | dielectric m => rfl
  | diffuseLight m => simp [Material.scatter] at hs

/-- C1: at positive depth, when the nearest-hit query produces a hit whose
material scatters, the integrator returns
`emitted + attenuation * radiance(scattered, world, depth - 1)`
componentwise (the source's `(emitted + attenuation) * recurse` agrees
because scattering materials emit black), and when scatter declines it
returns the emission alone. -/
theorem color_hit_formula (rf : RealFns) (rng : RNG) (ray : Ray)
    (background : Vec3) (world : Ray → Option Hit) (d : ℕ) (h : Hit)
    (hw : world ray = some h) :
    (∀ (resp : ScatterResponse) (rng2 : RNG),
      Material.scatter rf h.material rng ray h = (some resp, rng2) →
      color rf rng ray background world (d + 1) =
        h.material.emit h.u h.v h.p +
          resp.attenuation *
            color rf rng2 resp.scattered background world d) ∧
    (∀ rng2 : RNG,
      Material.scatter rf h.material rng ray h = (none, rng2) →
      color rf rng ray background world (d + 1) =
        h.material.emit h.u h.v h.p) := by
  constructor
  · intro resp rng2 hs
    have hemit := scatter_some_emit_default rf h.material rng ray h resp
      rng2 hs h.u h.v h.p
    simp only [color, hw, hs, hemit, Vec3.default]
    all_goals simp
  · intro rng2 hs
    simp only [color, hw, hs]

/-- Witness for C1 at a concrete Lambertian hit: the world always returns
`witLambHit`, whose scatter from `rng0` is `witResp`. -/
theorem color_hit_formula_witness :
    (fun _ : Ray => some witLambHit) witRay = some witLambHit ∧
    color sqrtOne rng0 witRay ⟨0, 0, 0⟩ (fun _ => some witLambHit) 1 =
      witLambHit.material.emit witLambHit.u witLambHit.v witLambHit.p +
        witResp.attenuation *
          color sqrtOne rng0 witResp.scattered ⟨0, 0, 0⟩
            (fun _ => some witLambHit) 0 := by
  have hs : Material.scatter sqrtOne witLambHit.material rng0 witRay
      witLambHit = (some witResp, rng0) := by
    simp [witLambHit, Material.scatter, Lambertian.scatter,
      randomInUnitSphere, rng0, Texture.value, witResp, Vec3.default,
      witRay]
  exact ⟨rfl,
    (color_hit_formula sqrtOne rng0 witRay ⟨0, 0, 0⟩
      (fun _ => some witLambHit) 0 witLambHit rfl).1 witResp rng0 hs⟩

/-- Every rectangle orientation reports a bounding box. -/
theorem rect_boundingBox_eq (r : Rect) (t0 t1 : ℚ) :
    ∃ b, Rect.boundingBox r t0 t1 = some b := by
  cases r with
  | xy r => exact ⟨_, rfl⟩
  | xz r => exact ⟨_, rfl⟩
  | yz r => exact ⟨_, rfl⟩

/-- C9: every shape variant reports a bounding box for every time
interval, so the BVH builder's `expect("should exist")` unwraps can never
panic on a scene built from these variants. -/
theorem shape_boundingBox_isSome (s : Shape) (t0 t1 : ℚ) :
    (Shape.boundingBox s t0 t1).isSome = true := by
  cases s with
  | sphere s => rfl
  | xyRect r => rfl
  | xzRect r => rfl
  | yzRect r => rfl
  | movingSphere m =>
    rw [Shape.boundingBox, Moving.boundingBox]
    split <;> rfl
  | cube c =>
    obtain ⟨b0, h0⟩ := rect_boundingBox_eq c.side0 t0 t1
    obtain ⟨b1, h1⟩ := rect_boundingBox_eq c.side1 t0 t1
    obtain ⟨b2, h2⟩ := rect_boundingBox_eq c.side2 t0 t1
    obtain ⟨b3, h3⟩ := rect_boundingBox_eq c.side3 t0 t1
    obtain ⟨b4, h4⟩ := rect_boundingBox_eq c.side4 t0 t1
    obtain ⟨b5, h5⟩ := rect_boundingBox_eq c.side5 t0 t1
    simp [Shape.boundingBox, Cube.boundingBox, Cube.sides,
      h0, h1, h2, h3, h4, h5]

/-- The leaves of a built (sub)tree are a permutation of the index range of
the slice it was built over, and every internal node has two children;
proved by induction on the fuel, which `buildTree` always supplies
sufficiently. -/
theorem buildTreeFuel_leaves :
    ∀ (fuel : ℕ) (rng : BuildRng) (shapes : List Shape) (offset : ℕ)
      (t0 t1 : ℚ), shapes.length ≤ fuel → shapes ≠ [] →
      (BVHMember.buildTreeFuel fuel rng shapes offset t0 t1).1.leafList.Perm
        (List.range' offset shapes.length) ∧
      (BVHMember.buildTreeFuel fuel rng shapes offset t0 t1).1.strictBinary
        = true := by
  intro fuel
  induction fuel with
  | zero =>
    intro rng shapes offset t0 t1 hlen hne
    cases shapes with
    | nil => exact absurd rfl hne
    | cons a l => simp at hlen
  | succ fuel ih =>
    intro rng shapes offset t0 t1 hlen hne
    have hslen : (List.insertionSort
        (fun a b => sortKey t0 t1 rng.next.1 a < sortKey t0 t1 rng.next.1 b)
        shapes).length = shapes.length := List.length_insertionSort _ _
    by_cases h1 : shapes.length = 1
    · simp only [BVHMember.buildTreeFuel, h1, if_pos]
      have hr : List.range' offset 1 = [offset] := by simp [List.range']
      exact ⟨by rw [hr]; exact List.Perm.refl _, rfl⟩
    · by_cases h2 : shapes.length = 2
      · simp only [BVHMember.buildTreeFuel, h1, h2, if_neg, if_pos]
        have hs2 : (List.insertionSort
            (fun a b => sortKey t0 t1 rng.next.1 a < sortKey t0 t1 rng.next.1 b)
            shapes).length = 2 := by rw [hslen, h2]
        revert hs2
        cases hsorted : List.insertionSort
            (fun a b => sortKey t0 t1 rng.next.1 a < sortKey t0 t1 rng.next.1 b)
            shapes with
        | nil => intro hs2; simp at hs2
        | cons a tl =>
          cases tl with
          | nil => intro hs2; simp at hs2
          | cons b tl2 =>
            intro _
            have hr : List.range' offset 2 = [offset, offset + 1] := by
              simp [List.range']
            refine ⟨?_, rfl⟩
            rw [hr]
            exact List.Perm.swap offset (offset + 1) []
      · by_cases h0 : shapes.length = 0
        · exact absurd (List.length_eq_zero.mp h0) hne
        · simp only [BVHMember.buildTreeFuel, h1, h2, h0, if_neg,
            if_false]
          have h3 : 3 ≤ shapes.length := by omega
          have htake : ((List.insertionSort
              (fun a b => sortKey t0 t1 rng.next.1 a < sortKey t0 t1 rng.next.1 b)
              shapes).take (shapes.length / 2)).length = shapes.length / 2 := by
            rw [List.length_take, hslen]
            omega
          have hdrop : ((List.insertionSort
              (fun a b => sortKey t0 t1 rng.next.1 a < sortKey t0 t1 rng.next.1 b)
              shapes).drop (shapes.length / 2)).length
              = shapes.length - shapes.length / 2 := by
            rw [List.length_drop, hslen]
          have htne : (List.insertionSort
              (fun a b => sortKey t0 t1 rng.next.1 a < sortKey t0 t1 rng.next.1 b)
              shapes).take (shapes.length / 2) ≠ [] := by
            apply List.ne_nil_of_length_pos
            rw [htake]
            omega
          have hdne : (List.insertionSort
              (fun a b => sortKey t0 t1 rng.next.1 a < sortKey t0 t1 rng.next.1 b)
              shapes).drop (shapes.length / 2) ≠ [] := by
            apply List.ne_nil_of_length_pos
            rw [hdrop]
            omega
          obtain ⟨pl, sl⟩ := ih rng.next.2
            ((List.insertionSort
              (fun a b => sortKey t0 t1 rng.next.1 a < sortKey t0 t1 rng.next.1 b)
              shapes).take (shapes.length / 2)) offset t0 t1
            (by rw [htake]; omega) htne
          obtain ⟨pr, sr⟩ := ih
            (BVHMember.buildTreeFuel fuel rng.next.2
              ((List.insertionSort
                (fun a b => sortKey t0 t1 rng.next.1 a < sortKey t0 t1 rng.next.1 b)
                shapes).take (shapes.length / 2)) offset t0 t1).2.2
            ((List.insertionSort
              (fun a b => sortKey t0 t1 rng.next.1 a < sortKey t0 t1 rng.next.1 b)
              shapes).drop (shapes.length / 2)) (offset + shapes.length / 2)
            t0 t1 (by rw [hdrop]; omega) hdne
          rw [htake] at pl
          rw [hdrop] at pr
          constructor
          · simp only [BVHMember.leafList]
            have happ := pl.append pr
            rw [List.range'_append_1] at happ
            have harith : shapes.length - shapes.length / 2 + shapes.length / 2
                = shapes.length := by omega
            rw [harith] at happ
            exact happ
          · simp only [BVHMember.strictBinary, sl, sr]
            rfl

/-- C3: for a nonempty scene, the built tree has exactly `n` leaves, their
shape indices are exactly `offset..offset+n` with no duplicates (each index
in exactly one leaf), and the tree is strictly binary. -/
theorem buildTree_leaf_invariants (rng : BuildRng) (shapes : List Shape)
    (offset : ℕ) (t0 t1 : ℚ) (hne : shapes ≠ []) :
    (BVHMember.buildTree rng shapes offset t0 t1).1.leafList.length
      = shapes.length ∧
    (BVHMember.buildTree rng shapes offset t0 t1).1.leafList.Nodup ∧
    (∀ i : ℕ,
      i ∈ (BVHMember.buildTree rng shapes offset t0 t1).1.leafList ↔
        offset ≤ i ∧ i < offset + shapes.length) ∧
    (BVHMember.buildTree rng shapes offset t0 t1).1.strictBinary = true := by
  obtain ⟨hp, hb⟩ :=
    buildTreeFuel_leaves shapes.length rng shapes offset t0 t1 le_rfl hne
  unfold BVHMember.buildTree
  refine ⟨?_, ?_, ?_, hb⟩
  · rw [hp.length_eq, List.length_range']
  · exact hp.nodup_iff.mpr (List.nodup_range' _ _ _ (by norm_num))
  · intro i
    rw [hp.mem_iff, List.mem_range'_1]

set_option maxHeartbeats 1000000 in
/-- C2 (divergence witness): for the two-shape scene `cexScene` (one moving
sphere, one distant static sphere) and the ray `cexRay`, whose time sample
10 lies outside the BVH build interval `[0,1]`, the BVH nearest-hit query
reports *no* hit — its root bounds only cover the endpoints of the shutter
interval, while `Moving::center` linearly extrapolates to `(1000,0,0)` at
time 10 — yet the brute-force linear scan over the very same (sorted) shape
list finds the moving sphere at `t = 14/3`.  This refutes the claim that
the BVH query and the linear scan agree for every ray with
`t_min < t_max`. -/
theorem bvh_linear_scan_divergence :
    (cexBvh.hit cexRealFns cexRay (1/1000) 1000000).isNone = true ∧
    (hit cexRealFns cexBvh.shapes cexRay (1/1000) 1000000).map Hit.t =
      some (14/3) := by
  have hbvh : cexBvh = ⟨[cexMovingShape, cexStaticShape],
      .node ⟨⟨-1, -1, -1⟩, ⟨101, 51, 1⟩⟩ (some (.leaf 1))
        (some (.leaf 0))⟩ := by
    norm_num [cexBvh, BoundingVolumeHierarchy.new, BVHMember.buildTree,
      cexScene, BVHMember.buildTreeFuel, List.insertionSort,
      List.orderedInsert, sortKey, cexMovingShape, cexStaticShape,
      Shape.boundingBox, Moving.boundingBox, Sphere.boundingBox,
      Moving.center, Sphere.centerAt, Vec3.comp, expectBox,
      AABB.surroundingBox, BuildRng.next, Vec3.default]
  rw [hbvh]
  constructor
  · norm_num [BoundingVolumeHierarchy.hit, BVHMember.indexedHit, AABB.hit,
      AABB.slabAxis, cexRay]
  · norm_num [hit, nearestHitFold, cexMovingShape, cexStaticShape,
      Moving.hit, Sphere.hit, sphereHitAt, Moving.center, Sphere.centerAt,
      Shape.hit, cexRay, cexRealFns, Vec3.dot, Ray.pointAt, Hit.new,
      Vec3.default, mat0, sphereUV]

/-- Witness for C3 on a concrete three-sphere scene. -/
theorem buildTree_leaf_invariants_witness :
    scene3 ≠ [] ∧
    (BVHMember.buildTree ⟨[0]⟩ scene3 0 0 1).1.leafList.length
      = scene3.length ∧
    (BVHMember.buildTree ⟨[0]⟩ scene3 0 0 1).1.leafList.Nodup ∧
    (1 ∈ (BVHMember.buildTree ⟨[0]⟩ scene3 0 0 1).1.leafList ↔
      0 ≤ 1 ∧ 1 < 0 + scene3.length) ∧
    (BVHMember.buildTree ⟨[0]⟩ scene3 0 0 1).1.strictBinary = true :=
  ⟨List.cons_ne_nil _ _,
   (buildTree_leaf_invariants ⟨[0]⟩ scene3 0 0 1 (List.cons_ne_nil _ _)).1,
   (buildTree_leaf_invariants ⟨[0]⟩ scene3 0 0 1 (List.cons_ne_nil _ _)).2.1,
   (buildTree_leaf_invariants ⟨[0]⟩ scene3 0 0 1
     (List.cons_ne_nil _ _)).2.2.1 1,
   (buildTree_leaf_invariants ⟨[0]⟩ scene3 0 0 1
     (List.cons_ne_nil _ _)).2.2.2⟩

/-- Folding lemma matching the raw `a` expression. -/
theorem sphereA_fold (ray : Ray) :
    ray.direction.dot ray.direction = sphereA ray := rfl

/-- Folding lemma matching the raw `b` expression. -/
theorem sphereB_fold (center : Vec3) (ray : Ray) :
    (ray.origin - center).dot ray.direction = sphereB center ray := rfl

/-- Folding lemma matching the raw `c` expression. -/
theorem sphereCc_fold (center : Vec3) (radius : ℚ) (ray : Ray) :
    (ray.origin - center).dot (ray.origin - center) - radius * radius
      = sphereCc center radius ray := rfl

/-- Folding lemma matching the raw discriminant expression. -/
theorem sphereDisc_fold (center : Vec3) (radius : ℚ) (ray : Ray) :
    sphereB center ray * sphereB center ray -
        sphereA ray * sphereCc center radius ray
      = sphereDisc center radius ray := rfl

/-- Folding lemma matching the raw smaller-root expression. -/
theorem sphereRootF_fold (rf : RealFns) (center : Vec3) (radius : ℚ)
    (ray : Ray) :
    (-sphereB center ray - rf.sqrt (sphereDisc center radius ray)) /
        sphereA ray = sphereRootF rf center radius ray := rfl

/-- Folding lemma matching the raw larger-root expression. -/
theorem sphereRootG_fold (rf : RealFns) (center : Vec3) (radius : ℚ)
    (ray : Ray) :
    (-sphereB center ray + rf.sqrt (sphereDisc center radius ray)) /
        sphereA ray = sphereRootG rf center radius ray := rfl

/-- The parametric distance returned by the sphere quadratic, as a pure
root-selection scheme: no hit when the discriminant is negative, else the
smaller root when it lies strictly inside `(t_min, t_max)`, else the larger
root when it does, else no hit. -/
theorem sphereHitAt_map_t (rf : RealFns) (center : Vec3) (radius : ℚ)
    (material : Material) (ray : Ray) (tmin tmax : ℚ) :
    (sphereHitAt rf center radius material ray tmin tmax).map Hit.t =
      if sphereDisc center radius ray < 0 then none
      else if sphereRootF rf center radius ray < tmax ∧
          sphereRootF rf center radius ray > tmin then
        some (sphereRootF rf center radius ray)
      else if sphereRootG rf center radius ray < tmax ∧
          sphereRootG rf center radius ray > tmin then
        some (sphereRootG rf center radius ray)
      else none := by
  simp only [sphereHitAt, sphereA_fold, sphereB_fold, sphereCc_fold,
    sphereDisc_fold, sphereRootF_fold, sphereRootG_fold]
  split_ifs with hd hf hg <;> simp [Hit.new, GT.gt]

/-- C4: assuming a genuine direction (`a > 0`) and a square root faithful
at the discriminant, the sphere intersection returns absence when the
discriminant is negative; otherwise `f` is indeed the smaller root and the
code returns `f` when it lies inside the bounds, falling back to `g`; and
for a ray origin inside the sphere (`c < 0`, with `t_min ≥ 0`) the smaller
root is excluded, so the farther (exit) root is the one returned. -/
theorem sphere_hit_root_selection (rf : RealFns) (center : Vec3)
    (radius : ℚ) (material : Material) (ray : Ray) (tmin tmax : ℚ)
    (ha : 0 < sphereA ray)
    (hs : 0 ≤ sphereDisc center radius ray →
      0 ≤ rf.sqrt (sphereDisc center radius ray) ∧
      rf.sqrt (sphereDisc center radius ray) *
        rf.sqrt (sphereDisc center radius ray) =
        sphereDisc center radius ray) :
    (sphereDisc center radius ray < 0 →
      sphereHitAt rf center radius material ray tmin tmax = none) ∧
    (0 ≤ sphereDisc center radius ray →
      sphereRootF rf center radius ray ≤ sphereRootG rf center radius ray ∧
      (sphereHitAt rf center radius material ray tmin tmax).map Hit.t =
        if sphereRootF rf center radius ray < tmax ∧
            sphereRootF rf center radius ray > tmin then
          some (sphereRootF rf center radius ray)
        else if sphereRootG rf center radius ray < tmax ∧
            sphereRootG rf center radius ray > tmin then
          some (sphereRootG rf center radius ray)
        else none) ∧
    (0 ≤ sphereDisc center radius ray → sphereCc center radius ray < 0 →
      0 ≤ tmin →
      (sphereHitAt rf center radius material ray tmin tmax).map Hit.t =
        if sphereRootG rf center radius ray < tmax ∧
            sphereRootG rf center radius ray > tmin then
          some (sphereRootG rf center radius ray)
        else none) := by
  refine ⟨fun hd => ?_, fun hd => ⟨?_, ?_⟩, fun hd hc htmin => ?_⟩
  · have hm := sphereHitAt_map_t rf center radius material ray tmin tmax
    rw [if_pos hd] at hm
    exact Option.map_eq_none'.mp hm
  · obtain ⟨hs0, _⟩ := hs hd
    rw [sphereRootF, sphereRootG]
    exact (div_le_div_iff_of_pos_right ha).mpr (by linarith)
  · rw [sphereHitAt_map_t, if_neg (not_lt.mpr hd)]
  · obtain ⟨hs0, hs1⟩ := hs hd
    have hbs : -sphereB center ray - rf.sqrt (sphereDisc center radius ray)
        < 0 := by
      by_contra hcon
      push_neg at hcon
      have h1 : rf.sqrt (sphereDisc center radius ray) ≤
          -sphereB center ray := by linarith
      have h2 : rf.sqrt (sphereDisc center radius ray) *
          rf.sqrt (sphereDisc center radius ray) ≤
          -sphereB center ray * -sphereB center ray :=
        mul_le_mul h1 h1 hs0 (le_trans hs0 h1)
      have h3 : sphereDisc center radius ray =
          sphereB center ray * sphereB center ray -
            sphereA ray * sphereCc center radius ray := rfl
      nlinarith [mul_pos ha (neg_pos.mpr hc)]
    have hf : sphereRootF rf center radius ray < 0 :=
      div_neg_of_neg_of_pos hbs ha
    rw [sphereHitAt_map_t, if_neg (not_lt.mpr hd), if_neg ?hfc]
    case hfc =>
      rintro ⟨-, h2⟩
      exact absurd h2 (not_lt.mpr (le_of_lt (lt_of_lt_of_le hf htmin)))

/-- Witness for C4: the unit sphere at the origin queried from its center —
discriminant 1, roots `-1` and `1`, and the exit root `t = 1` is returned. -/
theorem sphere_hit_root_selection_witness :
    (0 < sphereA witRay) ∧
    (0 : ℚ) ≤ sphereDisc ⟨0, 0, 0⟩ 1 witRay ∧
    sphereCc ⟨0, 0, 0⟩ 1 witRay < 0 ∧
    sphereRootF sqrtOne ⟨0, 0, 0⟩ 1 witRay ≤
      sphereRootG sqrtOne ⟨0, 0, 0⟩ 1 witRay ∧
    (sphereHitAt sqrtOne ⟨0, 0, 0⟩ 1 mat0 witRay (1/1000) 1000000).map
        Hit.t =
      (if sphereRootG sqrtOne ⟨0, 0, 0⟩ 1 witRay < 1000000 ∧
          sphereRootG sqrtOne ⟨0, 0, 0⟩ 1 witRay > 1/1000 then
        some (sphereRootG sqrtOne ⟨0, 0, 0⟩ 1 witRay)
      else none) := by
  have pha : 0 < sphereA witRay := by
    norm_num [sphereA, Vec3.dot, witRay]
  have phs : (0 : ℚ) ≤ sphereDisc ⟨0, 0, 0⟩ 1 witRay →
      0 ≤ sqrtOne.sqrt (sphereDisc ⟨0, 0, 0⟩ 1 witRay) ∧
      sqrtOne.sqrt (sphereDisc ⟨0, 0, 0⟩ 1 witRay) *
        sqrtOne.sqrt (sphereDisc ⟨0, 0, 0⟩ 1 witRay) =
        sphereDisc ⟨0, 0, 0⟩ 1 witRay := by
    intro _
    constructor
    · norm_num [sqrtOne]
    · norm_num [sqrtOne, sphereDisc, sphereA, sphereB, sphereCc, Vec3.dot,
        witRay]
  have pdisc : (0 : ℚ) ≤ sphereDisc ⟨0, 0, 0⟩ 1 witRay := by
    norm_num [sphereDisc, sphereA, sphereB, sphereCc, Vec3.dot, witRay]
  have pcc : sphereCc ⟨0, 0, 0⟩ 1 witRay < 0 := by
    norm_num [sphereCc, Vec3.dot, witRay]
  refine ⟨pha, pdisc, pcc, ?_, ?_⟩
  · exact ((sphere_hit_root_selection sqrtOne ⟨0, 0, 0⟩ 1 mat0 witRay
      (1/1000) 1000000 pha phs).2.1 pdisc).1
  · exact (sphere_hit_root_selection sqrtOne ⟨0, 0, 0⟩ 1 mat0 witRay
      (1/1000) 1000000 pha phs).2.2 pdisc pcc (by norm_num)

end RayTracer
